import Mathlib

/-!
Verification development for the OG social-card generation subsystem of
`urban/effect-solutions`.

The subsystem exists twice in the repository:

* an Effect-based module: `packages/website/scripts/generate-og/`
  (`config.ts`, `spec.ts`, `capture.ts`, `browser.ts`, `template-server.ts`,
  `main.ts`), and
* a legacy monolithic script: `packages/website/scripts/generate-og.ts`.

Definitions below are shallow embeddings of those sources.  Names follow the
source symbols; definitions carrying the `Script` suffix embed the legacy
script where the two implementations differ.  External effects (HTTP probes,
process spawn and exit, page navigation) are parameterised by oracle
environments, and resource events are recorded in explicit traces so that
acquire/release properties can be stated as trace counts.
-/

namespace OG

/-! ### Configuration constants (generate-og/config.ts, generate-og.ts) -/

/-- `TEMPLATE_ROUTE = "/og/template"` (config.ts). -/
def TEMPLATE_ROUTE : String := "/og/template"

/-- `OUTPUT_DIR = path.join(process.cwd(), "public", "og")`, modelled relative
to the working directory. -/
def OUTPUT_DIR : String := "public/og"

/-- `SERVER_PORT = 4311` (config.ts). -/
def SERVER_PORT : Nat := 4311

/-- `VIEWPORT = { width: 1200, height: 630 }`. -/
def VIEWPORT_WIDTH : Nat := 1200

/-- `VIEWPORT = { width: 1200, height: 630 }`. -/
def VIEWPORT_HEIGHT : Nat := 630

/-- `DEVICE_SCALE = 2` (config.ts, Effect module). -/
def DEVICE_SCALE : Nat := 2

/-- Legacy script: `DEFAULT_DEVICE_SCALE = Number(process.env.OG_DEVICE_SCALE ?? 2)`
(generate-og.ts line 13).  The environment variable, when set, is assumed to
hold a numeral; `Number` parsing itself is abstracted. -/
def DEFAULT_DEVICE_SCALE (ogDeviceScale : Option Nat) : Nat :=
  ogDeviceScale.getD 2

/-- Readiness poll spacing: `Schedule.spaced("500 millis")` in
template-server.ts, `setTimeout(..., 500)` in generate-og.ts. -/
def POLL_INTERVAL_MS : Nat := 500

/-- Readiness timeout: `Effect.timeout("45 seconds")` in template-server.ts,
`timeoutMs = 45_000` in generate-og.ts. -/
def WAIT_TIMEOUT_MS : Nat := 45000

/-- Maximum number of readiness polls that fit in the timeout window
(polls are spaced `POLL_INTERVAL_MS` apart; request latency abstracted). -/
def pollLimit : Nat := WAIT_TIMEOUT_MS / POLL_INTERVAL_MS

/-- JS `String.prototype.trim`: drop leading and trailing whitespace.
(Implemented over the character list so that it evaluates by kernel
reduction.) -/
def jsTrim (s : String) : String :=
  ⟨((s.data.dropWhile Char.isWhitespace).reverse.dropWhile Char.isWhitespace).reverse⟩

/-- `s.replace(/\/$/, "")`: drop a single trailing slash. -/
def stripTrail (s : String) : String :=
  if s.data.getLast? = some '/' then ⟨s.data.dropLast⟩ else s

/-- JS `s.split(",")`: split at every comma; `"".split(",")` is `[""]`. -/
def splitCommaGo (acc : List Char) : List Char → List String
  | [] => [⟨acc.reverse⟩]
  | c :: rest =>
    if c = ',' then ⟨acc.reverse⟩ :: splitCommaGo [] rest
    else splitCommaGo (c :: acc) rest

/-- JS `s.split(",")`. -/
def splitComma (s : String) : List String :=
  splitCommaGo [] s.data

/-- `getBaseUrl = () => process.env.OG_BASE_URL?.trim().replace(/\/$/, "") ?? null`
(config.ts). -/
def getBaseUrl (ogBaseUrl : Option String) : Option String :=
  ogBaseUrl.map (fun s => stripTrail (jsTrim s))

/-- `acquireServer` / `ensureTemplateServer` guard the explicit branch with JS
truthiness (`if (explicitBaseUrl)`), so an empty string behaves like `null`. -/
def getBaseUrlTruthy (ogBaseUrl : Option String) : Option String :=
  match getBaseUrl ogBaseUrl with
  | none => none
  | some s => if s = "" then none else some s

/-- `getOnlyFilter = () => (process.env.OG_ONLY ?? "").split(",").map(trim).filter(Boolean)`
(config.ts). -/
def getOnlyFilter (ogOnly : Option String) : List String :=
  ((splitComma (ogOnly.getD "")).map jsTrim).filter (fun s => s ≠ "")

/-- `new URL(route, base).toString()` for an origin-only base URL and an
absolute-path route. -/
def resolveUrl (base route : String) : String :=
  stripTrail base ++ route

/-! ### Spec provider (generate-og/spec.ts) -/

/-- A doc entry as returned by `getAllDocs()` (src/lib/mdx.ts): slug, title,
optional description. -/
structure Doc where
  slug : String
  title : String
  description : Option String
  deriving DecidableEq, Repr

/-- `TemplateFields` (spec.ts): slug, title, optional subtitle/background.
`none` models an absent field. -/
structure TemplateFields where
  slug : String
  title : String
  subtitle : Option String := none
  background : Option String := none
  deriving DecidableEq, Repr

/-- Per-doc spec built by `buildDocSpecs`:
`{ slug, title, subtitle: doc.description ?? "Best practices for applying Effect in production." }`. -/
def docSpec (doc : Doc) : TemplateFields :=
  { slug := doc.slug
    title := doc.title
    subtitle := some (doc.description.getD
      "Best practices for applying Effect in production.") }

/-- The synthetic home-page spec (spec.ts lines 29-33). -/
def homeSpec : TemplateFields :=
  { slug := "home"
    title := "Effect Solutions"
    subtitle := some "Best practices for building Effect TypeScript applications" }

/-- `buildDocSpecs`: `[homeSpec, ...docSpecs]`. -/
def buildDocSpecs (docs : List Doc) : List TemplateFields :=
  homeSpec :: docs.map docSpec

/-- The loop body of `dedupeSpecs`, with the `seen` set made explicit and the
`console.warn` messages collected in the second component. -/
def dedupeGo (seen : List String) : List TemplateFields → List TemplateFields × List String
  | [] => ([], [])
  | s :: rest =>
    if s.slug ∈ seen then
      let r := dedupeGo seen rest
      (r.1, ("Skipping duplicate OG slug: " ++ s.slug) :: r.2)
    else
      let r := dedupeGo (s.slug :: seen) rest
      (s :: r.1, r.2)

/-- `dedupeSpecs` (spec.ts lines 38-52): the returned unique list. -/
def dedupeSpecs (specs : List TemplateFields) : List TemplateFields :=
  (dedupeGo [] specs).1

/-- The non-fatal duplicate warnings emitted by `dedupeSpecs`. -/
def dedupeWarnings (specs : List TemplateFields) : List String :=
  (dedupeGo [] specs).2

/-- Body of `pickSpecs` after de-duplication (spec.ts lines 54-71), with the
allow-list passed explicitly.  The boolean records whether the
fallback warning (`No OG specs matched OG_ONLY filter ...`) was emitted. -/
def pickSpecsWith (only : List String) (rawSpecs : List TemplateFields) :
    List TemplateFields × Bool :=
  let specs := dedupeSpecs rawSpecs
  if only.isEmpty then (specs, false)
  else
    let filtered := specs.filter (fun s => only.contains s.slug)
    if filtered.isEmpty then (specs, true) else (filtered, false)

/-- `pickSpecs` (spec.ts): filter from `OG_ONLY`, specs from
`dedupeSpecs(buildDocSpecs())`. -/
def pickSpecs (ogOnly : Option String) (docs : List Doc) :
    List TemplateFields × Bool :=
  pickSpecsWith (getOnlyFilter ogOnly) (buildDocSpecs docs)

/-! ### Capture plan (generate-og/capture.ts, generate-og.ts lines 82-112)

Both implementations build the navigation URL the same way: start from
`new URL(TEMPLATE_ROUTE, baseUrl)` and, for every own field of the spec object
except `slug`, set one query parameter when the value is truthy (non-empty);
falsy (empty or absent) fields are skipped.  The legacy script additionally
calls `params.delete("slug")` on the fresh URL, a no-op. -/

/-- Query parameter contributed by one optional display field: set only when
present and non-empty (JS truthiness on strings). -/
def optParam (key : String) : Option String → List (String × String)
  | none => []
  | some v => if v = "" then [] else [(key, v)]

/-- The query parameters set by the capture loop, in `Object.entries` order
(`slug` excluded, falsy values skipped). -/
def specQueryParams (s : TemplateFields) : List (String × String) :=
  optParam "title" (some s.title) ++ optParam "subtitle" s.subtitle ++
    optParam "background" s.background

/-- Everything `captureSpec` fixes about one capture: page options, navigation
URL, screenshot options and output path. -/
structure CapturePlan where
  viewportWidth : Nat
  viewportHeight : Nat
  deviceScaleFactor : Nat
  url : String
  urlQuery : List (String × String)
  waitUntil : String
  screenshotType : String
  screenshotFullPage : Bool
  outPath : String
  deriving DecidableEq, Repr

/-- The capture plan of the Effect module's `captureSpec` (capture.ts):
`newPage({ viewport: VIEWPORT, deviceScaleFactor: DEVICE_SCALE })`,
`goto(templateURL, { waitUntil: "load" })`,
`screenshot({ path: filePath, type: "png" })`.  No `fullPage` option is
passed, so Playwright's default (`fullPage: false`, clip to viewport)
applies. -/
def captureSpecPlan (baseUrl : String) (s : TemplateFields) : CapturePlan :=
  { viewportWidth := VIEWPORT_WIDTH
    viewportHeight := VIEWPORT_HEIGHT
    deviceScaleFactor := DEVICE_SCALE
    url := resolveUrl baseUrl TEMPLATE_ROUTE
    urlQuery := specQueryParams s
    waitUntil := "load"
    screenshotType := "png"
    screenshotFullPage := false
    outPath := OUTPUT_DIR ++ "/" ++ s.slug ++ ".png" }

/-- The legacy script's plan differs only in the device scale factor, which is
`DEFAULT_DEVICE_SCALE` (overridable via `OG_DEVICE_SCALE`). -/
def captureSpecPlanScript (ogDeviceScale : Option Nat) (baseUrl : String)
    (s : TemplateFields) : CapturePlan :=
  { captureSpecPlan baseUrl s with
    deviceScaleFactor := DEFAULT_DEVICE_SCALE ogDeviceScale }

/-! ### Resource events and per-job execution -/

/-- Observable resource events of a run. -/
inductive Ev
  | discoveryProbe (url : String)
  | readinessPoll (url : String)
  | serverSpawn
  | serverKill
  | browserLaunch
  | browserClose
  | pageOpen (slug : String)
  | pageClose (slug : String)
  | fileWrite (path : String)
  deriving DecidableEq, Repr

/-- Failure-injection oracle for one capture job: whether `newPage`,
`page.goto` and `page.screenshot` succeed. -/
structure JobEnv where
  newPageOk : Bool
  gotoOk : Bool
  screenshotOk : Bool
  deriving DecidableEq, Repr

/-- Execution of the Effect module's `captureSpec` for one spec: the page is
acquired with `Effect.acquireRelease(newPage, close)` under `Effect.scoped`,
so once `newPage` succeeds the close runs on every exit path of the job. -/
def captureSpecRun (e : JobEnv) (slug : String) : Bool × List Ev :=
  if e.newPageOk = false then (false, [])
  else if e.gotoOk = false then (false, [.pageOpen slug, .pageClose slug])
  else if e.screenshotOk = false then (false, [.pageOpen slug, .pageClose slug])
  else (true, [.pageOpen slug, .fileWrite (OUTPUT_DIR ++ "/" ++ slug ++ ".png"),
               .pageClose slug])

/-- Execution of the legacy script's `captureSpec` (generate-og.ts lines
82-112): plain sequential `await`s with `page.close()` as the last statement
and no try/finally, so a failing `goto` or `screenshot` throws out of the
function before the close runs. -/
def captureSpecRunScript (e : JobEnv) (slug : String) : Bool × List Ev :=
  if e.newPageOk = false then (false, [])
  else if e.gotoOk = false then (false, [.pageOpen slug])
  else if e.screenshotOk = false then (false, [.pageOpen slug])
  else (true, [.pageOpen slug, .fileWrite (OUTPUT_DIR ++ "/" ++ slug ++ ".png"),
               .pageClose slug])

/-! ### Render target locator (template-server.ts / unnamed part, and
generate-og.ts `ensureTemplateServer`) -/

/-- Outcome of one 1-second-budget discovery probe (`checkServer` under
`Effect.timeout("1 second")`, resp. `isServerReachable`): successful status,
non-OK status, connection error, or the probe exceeding its time budget. -/
inductive ProbeOutcome
  | ok
  | notOk
  | connErr
  | timeout
  deriving DecidableEq, Repr

/-- Environment of the locator: configuration variables plus oracles for the
discovery probes, the readiness polls of a freshly spawned server, and the
spawned process's early exit (poll index before which it exits, and its exit
code, `none` modelling a `null` code). -/
structure LocEnv where
  ogBaseUrl : Option String
  nextDefaultDevBaseUrl : Option String
  probe : String → ProbeOutcome
  ready : Nat → Bool
  procExit : Option (Nat × Option Int)

/-- The discovery candidate list
`[process.env.NEXT_DEFAULT_DEV_BASE_URL, "http://127.0.0.1:3000", "http://localhost:3000"].filter(Boolean)`. -/
def candidates (env : LocEnv) : List String :=
  ((match env.nextDefaultDevBaseUrl with
    | none => []
    | some u => [u]) ++ ["http://127.0.0.1:3000", "http://localhost:3000"]).filter
    (fun u => u ≠ "")

/-- Base URL of the ephemeral server: `http://127.0.0.1:${SERVER_PORT}`. -/
def ephemeralBaseUrl : String := "http://127.0.0.1:" ++ toString SERVER_PORT

/-- The URL polled for readiness after an ephemeral launch. -/
def ephemeralTemplateUrl : String := resolveUrl ephemeralBaseUrl TEMPLATE_ROUTE

/-- The timeout error message of `waitForServer` (identical in both
implementations). -/
def waitTimeoutMsg (url : String) : String :=
  "Timed out waiting for Next.js dev server at " ++ url

/-- The early-exit error message of the legacy script:
`Next dev server exited early (code ${code ?? "null"})`. -/
def exitEarlyMsg (code : Option Int) : String :=
  "Next dev server exited early (code " ++
    (match code with | some c => toString c | none => "null") ++ ")"

/-- `TimeoutException` raised by `Effect.timeout` when a discovery probe
exceeds its 1-second budget, rendered as an error string. -/
def timeoutExceptionMsg : String := "TimeoutException"

/-- Index of the first readiness poll that observes a successful status,
among the polls that fit in the 45-second window. -/
def firstReady (ready : Nat → Bool) : Option Nat :=
  (List.range pollLimit).find? ready

/-- Number of readiness polls performed by `waitForServer` before it
returns. -/
def pollsDone (ready : Nat → Bool) : Nat :=
  match firstReady ready with
  | some i => i + 1
  | none => pollLimit

/-- `waitForServer` (both implementations): poll `checkServer` every 500ms
until a successful status or the 45s timeout; on timeout fail with
`waitTimeoutMsg`.  Total by construction: the poll budget is bounded by the
window. -/
def waitForServer (ready : Nat → Bool) (url : String) : Except String Unit :=
  match firstReady ready with
  | some _ => .ok ()
  | none => .error (waitTimeoutMsg url)

/-- The readiness-poll trace of a `waitForServer` run. -/
def waitTrace (ready : Nat → Bool) (url : String) : List Ev :=
  List.replicate (pollsDone ready) (.readinessPoll url)

/-- A render target handle: `{ baseUrl, process }` in template-server.ts,
`{ baseUrl, close? }` in generate-og.ts.  `owned` is true exactly when
`process` is non-null (resp. a `close` teardown was attached), i.e. when this
run spawned the server. -/
structure ServerHandle where
  baseUrl : String
  owned : Bool
  deriving DecidableEq, Repr

/-- Sequential candidate scan of the Effect module's `findExistingDevServer`:
`checkServer(url).pipe(Effect.timeout("1 second"))` maps a successful status
to `true` and non-OK/connection errors to `false` (`Effect.catchAll` inside
`checkServer`), but a probe exceeding the budget fails the whole scan with
`TimeoutException` — there is no handler for it. -/
def scanCandidates (probe : String → ProbeOutcome) :
    List String → Except String (Option String) × List Ev
  | [] => (.ok none, [])
  | c :: rest =>
    let url := resolveUrl c TEMPLATE_ROUTE
    match probe url with
    | .ok => (.ok (some (stripTrail c)), [.discoveryProbe url])
    | .timeout => (.error timeoutExceptionMsg, [.discoveryProbe url])
    | _ =>
      let r := scanCandidates probe rest
      (r.1, .discoveryProbe url :: r.2)

/-- Sequential candidate scan of the legacy `findExistingDevServer`:
`isServerReachable` catches every failure, the abort on timeout included, and
returns `false`, so the scan itself never fails. -/
def scanCandidatesScript (probe : String → ProbeOutcome) :
    List String → Option String × List Ev
  | [] => (none, [])
  | c :: rest =>
    let url := resolveUrl c TEMPLATE_ROUTE
    match probe url with
    | .ok => (some (stripTrail c), [.discoveryProbe url])
    | _ =>
      let r := scanCandidatesScript probe rest
      (r.1, .discoveryProbe url :: r.2)

/-- `startDevServer` of the Effect module (template-server.ts): spawn via
`Command.start`, fork the stdout forwarder (fire-and-forget, not modelled in
the trace), then `waitForServer`.  No listener observes the process's exit:
`env.procExit` is deliberately ignored, mirroring the source. -/
def startDevServer (env : LocEnv) : Except String ServerHandle × List Ev :=
  let tr := Ev.serverSpawn :: waitTrace env.ready ephemeralTemplateUrl
  match waitForServer env.ready ephemeralTemplateUrl with
  | .ok _ => (.ok ⟨ephemeralBaseUrl, true⟩, tr)
  | .error e => (.error e, tr)

/-- The launch part of the legacy `ensureTemplateServer`: spawn, then
`Promise.race([readyPromise, exitPromise])` — readiness observed strictly
before the process exit wins; otherwise the exit rejection wins with
`exitEarlyMsg`, unless the 45s timeout fires first. -/
def startDevServerScript (env : LocEnv) : Except String ServerHandle × List Ev :=
  match env.procExit with
  | none =>
    let tr := Ev.serverSpawn :: waitTrace env.ready ephemeralTemplateUrl
    match waitForServer env.ready ephemeralTemplateUrl with
    | .ok _ => (.ok ⟨ephemeralBaseUrl, true⟩, tr)
    | .error e => (.error e, tr)
  | some (n, code) =>
    match firstReady env.ready with
    | some i =>
      if i < n then
        (.ok ⟨ephemeralBaseUrl, true⟩,
         Ev.serverSpawn :: List.replicate (i + 1) (.readinessPoll ephemeralTemplateUrl))
      else
        (.error (exitEarlyMsg code),
         Ev.serverSpawn :: List.replicate (min n pollLimit) (.readinessPoll ephemeralTemplateUrl))
    | none =>
      if n ≤ pollLimit then
        (.error (exitEarlyMsg code),
         Ev.serverSpawn :: List.replicate (min n pollLimit) (.readinessPoll ephemeralTemplateUrl))
      else
        (.error (waitTimeoutMsg ephemeralTemplateUrl),
         Ev.serverSpawn :: List.replicate pollLimit (.readinessPoll ephemeralTemplateUrl))

/-- `acquireServer` (template-server.ts): explicit base URL (JS-truthy) →
unowned handle, no probe; else discovery; else ephemeral launch. -/
def acquireServer (env : LocEnv) : Except String ServerHandle × List Ev :=
  match getBaseUrlTruthy env.ogBaseUrl with
  | some url => (.ok ⟨url, false⟩, [])
  | none =>
    match scanCandidates env.probe (candidates env) with
    | (.error e, tr) => (.error e, tr)
    | (.ok (some base), tr) => (.ok ⟨base, false⟩, tr)
    | (.ok none, tr) =>
      let r := startDevServer env
      (r.1, tr ++ r.2)

/-- Building `TemplateServer.layer = Layer.scoped(TemplateServer, acquireServer ...)`:
`Command.start` registers the process kill in the layer's scope, so if
`acquireServer` fails after spawning, the scope closes and the process is
killed right there; on success the kill is deferred to the run's scope. -/
def serverLayerBuild (env : LocEnv) : Except String ServerHandle × List Ev :=
  let r := acquireServer env
  match r.1 with
  | .ok h => (.ok h, r.2)
  | .error e =>
    (.error e, r.2 ++ (if r.2.count .serverSpawn = 1 then [.serverKill] else []))

/-- `ensureTemplateServer` of the legacy script: same resolution order, but
discovery treats probe timeouts as unreachable, and the launch branch races
readiness against process exit.  A launch failure throws without killing the
spawned child (there is no try/finally around it). -/
def ensureTemplateServerScript (env : LocEnv) : Except String ServerHandle × List Ev :=
  match getBaseUrlTruthy env.ogBaseUrl with
  | some url => (.ok ⟨url, false⟩, [])
  | none =>
    match scanCandidatesScript env.probe (candidates env) with
    | (some base, tr) => (.ok ⟨base, false⟩, tr)
    | (none, tr) =>
      let r := startDevServerScript env
      (r.1, tr ++ r.2)

/-! ### Top-level pipelines (unnamed main module, generate-og.ts `main`) -/

/-- Environment of a whole run: locator environment, the `OG_ONLY` filter,
browser-launch success, and a per-slug capture oracle. -/
structure RunEnv where
  loc : LocEnv
  ogOnly : Option String
  browserLaunchOk : Bool
  job : String → JobEnv

/-- Releasing a server handle at scope close: the owned process is killed,
an unowned handle releases nothing. -/
def serverRelease (h : ServerHandle) : List Ev :=
  if h.owned then [.serverKill] else []

/-- The capture phase of the Effect pipeline:
`Effect.forEach(specs, captureSpec, { concurrency: "unbounded" })` with the
default fail-fast policy.  The source runs the jobs concurrently; this model
fixes the list-order interleaving, which is immaterial to the properties
proved here (capture jobs emit no browser/server events, and on the
all-success path every job's events occur). -/
def runCaptures (job : String → JobEnv) : List TemplateFields → Bool × List Ev
  | [] => (true, [])
  | s :: rest =>
    let r := captureSpecRun (job s.slug) s.slug
    if r.1 then
      let r2 := runCaptures job rest
      (r2.1, r.2 ++ r2.2)
    else (false, r.2)

/-- The capture phase of the legacy script: a sequential `for … await` loop,
aborted by the first failing job. -/
def runCapturesScript (job : String → JobEnv) :
    List TemplateFields → Bool × List Ev
  | [] => (true, [])
  | s :: rest =>
    let r := captureSpecRunScript (job s.slug) s.slug
    if r.1 then
      let r2 := runCapturesScript job rest
      (r2.1, r.2 ++ r2.2)
    else (false, r.2)

/-- Building `Browser.layer` (browser.ts): `Effect.acquireRelease(chromium.launch, close)`
under `Layer.scoped`; a failed launch acquires nothing, a successful one
registers the close in the run's scope. -/
def browserLayerBuild (ok : Bool) : Except String Unit × List Ev :=
  if ok then (.ok (), [.browserLaunch])
  else (.error "Failed to launch browser", [])

/-- The Effect pipeline (unnamed main module):
`program.pipe(Effect.provide(MainLayer), BunRuntime.runMain)` with
`MainLayer = Layer.mergeAll(Browser.layer, TemplateServer.layer)`.  Both
layers are built when the effect starts (before the empty-spec check); if
either build fails the already-acquired resource of the other is released and
the run fails.  On every later exit of the program, layer teardown closes the
browser and kills the owned server. -/
def runPipeline (env : RunEnv) (docs : List Doc) : Bool × List Ev :=
  let s := serverLayerBuild env.loc
  let b := browserLayerBuild env.browserLaunchOk
  match s.1, b.1 with
  | .error _, .error _ => (false, s.2 ++ b.2)
  | .error _, .ok _ => (false, s.2 ++ b.2 ++ [.browserClose])
  | .ok h, .error _ => (false, s.2 ++ b.2 ++ serverRelease h)
  | .ok h, .ok _ =>
    let specs := (pickSpecs env.ogOnly docs).1
    if specs.isEmpty then (true, s.2 ++ b.2 ++ [.browserClose] ++ serverRelease h)
    else
      let c := runCaptures env.job specs
      (c.1, s.2 ++ b.2 ++ c.2 ++ [.browserClose] ++ serverRelease h)

/-- The legacy script's `main`: sequential awaits; the browser close and the
server teardown live in a try/finally entered only after both
`ensureTemplateServer` and `chromium.launch` succeed, so a locator failure
after spawning, or a browser-launch failure, runs no teardown at all. -/
def runPipelineScript (env : RunEnv) (docs : List Doc) : Bool × List Ev :=
  let specs := (pickSpecs env.ogOnly docs).1
  if specs.isEmpty then (true, [])
  else
    let s := ensureTemplateServerScript env.loc
    match s.1 with
    | .error _ => (false, s.2)
    | .ok h =>
      if env.browserLaunchOk = false then (false, s.2)
      else
        let c := runCapturesScript env.job specs
        (c.1, s.2 ++ [.browserLaunch] ++ c.2 ++ [.browserClose] ++ serverRelease h)

/-- Events the acquisition phase of a locator may emit. -/
def acqEv : Ev → Bool
  | .discoveryProbe _ => true
  | .readinessPoll _ => true
  | .serverSpawn => true
  | _ => false

/-- Events a locator may emit, the scope-close kill included. -/
def locatorEv (e : Ev) : Bool := acqEv e || e == Ev.serverKill

/-- Events a capture job may emit. -/
def jobEv : Ev → Bool
  | .pageOpen _ => true
  | .pageClose _ => true
  | .fileWrite _ => true
  | _ => false

/-! ### Lemmas about de-duplication -/

lemma dedupeGo_length (seen : List String) (l : List TemplateFields) :
    (dedupeGo seen l).1.length + (dedupeGo seen l).2.length = l.length := by
  induction l generalizing seen with
  | nil => simp [dedupeGo]
  | cons s rest ih =>
    by_cases h : s.slug ∈ seen
    · have := ih seen
      simp only [dedupeGo, if_pos h, List.length_cons]
      omega
    · have := ih (s.slug :: seen)
      simp only [dedupeGo, if_neg h, List.length_cons]
      omega

lemma dedupeGo_first (seen : List String) (l : List TemplateFields) :
    ∀ s ∈ (dedupeGo seen l).1,
      s.slug ∉ seen ∧ l.find? (fun t => t.slug == s.slug) = some s := by
  induction l generalizing seen with
  | nil => simp [dedupeGo]
  | cons a rest ih =>
    intro s hs
    by_cases h : a.slug ∈ seen
    · simp only [dedupeGo, if_pos h] at hs
      obtain ⟨h1, h2⟩ := ih seen s hs
      have hne : (a.slug == s.slug) = false := by
        simp only [beq_eq_false_iff_ne]
        intro he
        exact h1 (he ▸ h)
      exact ⟨h1, by simp [List.find?_cons, hne, h2]⟩
    · simp only [dedupeGo, if_neg h] at hs
      rcases List.mem_cons.mp hs with rfl | hs'
      · exact ⟨h, by simp [List.find?_cons]⟩
      · obtain ⟨h1, h2⟩ := ih (a.slug :: seen) s hs'
        have hna : s.slug ∉ seen := fun hc => h1 (List.mem_cons_of_mem _ hc)
        have hne : (a.slug == s.slug) = false := by
          simp only [beq_eq_false_iff_ne]
          intro he
          apply h1
          rw [← he]
          exact List.mem_cons_self _ _
        exact ⟨hna, by simp [List.find?_cons, hne, h2]⟩

lemma dedupeGo_nodup (seen : List String) (l : List TemplateFields) :
    ((dedupeGo seen l).1.map TemplateFields.slug).Nodup := by
  induction l generalizing seen with
  | nil => simp [dedupeGo]
  | cons a rest ih =>
    by_cases h : a.slug ∈ seen
    · simpa only [dedupeGo, if_pos h] using ih seen
    · simp only [dedupeGo, if_neg h, List.map_cons, List.nodup_cons]
      refine ⟨?_, ih (a.slug :: seen)⟩
      intro hc
      rcases List.mem_map.mp hc with ⟨t, ht, hts⟩
      have hnotin := (dedupeGo_first (a.slug :: seen) rest t ht).1
      apply hnotin
      rw [hts]
      exact List.mem_cons_self _ _

lemma dedupeGo_toFinset (seen : List String) (l : List TemplateFields) :
    ((dedupeGo seen l).1.map TemplateFields.slug).toFinset =
      (l.map TemplateFields.slug).toFinset \ seen.toFinset := by
  induction l generalizing seen with
  | nil => simp [dedupeGo]
  | cons a rest ih =>
    by_cases h : a.slug ∈ seen
    · simp only [dedupeGo, if_pos h, List.map_cons, List.toFinset_cons]
      rw [ih seen, Finset.insert_sdiff_of_mem]
      exact List.mem_toFinset.mpr h
    · simp only [dedupeGo, if_neg h, List.map_cons, List.toFinset_cons]
      rw [ih (a.slug :: seen)]
      ext x
      simp only [Finset.mem_insert, Finset.mem_sdiff, List.mem_toFinset,
        List.toFinset_cons, Finset.mem_sdiff, Finset.mem_insert]
      constructor
      · rintro (rfl | ⟨hx, hxs⟩)
        · exact ⟨Or.inl rfl, h⟩
        · exact ⟨Or.inr hx, fun hh => hxs (Or.inr hh)⟩
      · rintro ⟨(rfl | hx), hs⟩
        · exact Or.inl rfl
        · by_cases hxa : x = a.slug
          · exact Or.inl hxa
          · exact Or.inr ⟨hx, fun hh => hh.elim hxa hs⟩

/-- Claim C6: for every candidate job list, de-duplication by identifier
yields a list whose size equals the number of distinct identifiers, each kept
record is the first occurrence of its identifier in the input, and one
non-fatal warning is emitted per dropped duplicate (so the number of warnings
is the number of dropped duplicates). -/
theorem dedupeSpecs_correct (l : List TemplateFields) :
    (dedupeSpecs l).length = (l.map TemplateFields.slug).toFinset.card ∧
    (∀ s ∈ dedupeSpecs l, l.find? (fun t => t.slug == s.slug) = some s) ∧
    (dedupeWarnings l).length = l.length - (l.map TemplateFields.slug).toFinset.card := by
  have hnd := dedupeGo_nodup [] l
  have hfs := dedupeGo_toFinset [] l
  have hlen := dedupeGo_length [] l
  have hcard : (dedupeSpecs l).length = (l.map TemplateFields.slug).toFinset.card := by
    have h1 := List.toFinset_card_of_nodup hnd
    simp only [List.toFinset_nil, Finset.sdiff_empty] at hfs
    rw [dedupeSpecs, ← List.length_map (dedupeGo [] l).1 TemplateFields.slug,
      ← h1, hfs]
  refine ⟨hcard, ?_, ?_⟩
  · intro s hs
    exact (dedupeGo_first [] l s hs).2
  · have : (dedupeSpecs l).length + (dedupeWarnings l).length = l.length := hlen
    omega

/-- Claim C7: for every non-empty allow-list filter, if it matches at least
one de-duplicated job the effective job set is exactly the matching jobs (no
warning); if it matches none, the effective job set equals the full
de-duplicated set with the fallback warning emitted, and (for a non-empty
candidate list) the effective set is never empty. -/
theorem pickSpecs_filter_fallback (only : List String) (raw : List TemplateFields)
    (hne : only ≠ []) :
    ((∃ s ∈ dedupeSpecs raw, s.slug ∈ only) →
      pickSpecsWith only raw =
        ((dedupeSpecs raw).filter (fun s => only.contains s.slug), false)) ∧
    ((∀ s ∈ dedupeSpecs raw, s.slug ∉ only) →
      pickSpecsWith only raw = (dedupeSpecs raw, true)) ∧
    (raw ≠ [] → (pickSpecsWith only raw).1 ≠ []) := by
  have honly : only.isEmpty = false := by
    cases only with
    | nil => exact absurd rfl hne
    | cons a t => rfl
  have hded : ∀ a b, raw = a :: b → dedupeSpecs raw ≠ [] := by
    intro a b hr
    subst hr
    simp [dedupeSpecs, dedupeGo]
  refine ⟨?_, ?_, ?_⟩
  · rintro ⟨s, hs, hmem⟩
    have hfil : ((dedupeSpecs raw).filter (fun t => only.contains t.slug)).isEmpty = false := by
      rw [List.isEmpty_eq_false_iff_exists_mem]
      exact ⟨s, List.mem_filter.mpr ⟨hs, by simpa using hmem⟩⟩
    simp only [pickSpecsWith, honly, Bool.false_eq_true, if_false, hfil]
  · intro hnone
    have hfil : ((dedupeSpecs raw).filter (fun t => only.contains t.slug)).isEmpty = true := by
      rw [List.isEmpty_iff]
      rw [List.filter_eq_nil_iff]
      intro t ht
      simpa using hnone t ht
    simp only [pickSpecsWith, honly, Bool.false_eq_true, if_false, hfil, if_true]
  · intro hraw
    cases hr : raw with
    | nil => exact absurd hr hraw
    | cons a b =>
      have hd := hded a b hr
      subst hr
      simp only [pickSpecsWith, honly, Bool.false_eq_true, if_false, List.isEmpty_eq_true]
      split
      · exact hd
      · next hflt => exact hflt

/-- Concrete instance of `pickSpecs_filter_fallback`: allow-list `["zzz"]`
against jobs `a`, `b` matches nothing, so the full de-duplicated set is kept
with the warning flag set. -/
theorem pickSpecs_filter_fallback_witness :
    (["zzz"] : List String) ≠ [] ∧
    ((∀ s ∈ dedupeSpecs [⟨"a", "A", none, none⟩, ⟨"b", "B", none, none⟩],
        s.slug ∉ (["zzz"] : List String)) →
      pickSpecsWith ["zzz"] [⟨"a", "A", none, none⟩, ⟨"b", "B", none, none⟩] =
        (dedupeSpecs [⟨"a", "A", none, none⟩, ⟨"b", "B", none, none⟩], true)) :=
  ⟨by decide,
   (pickSpecs_filter_fallback ["zzz"]
     [⟨"a", "A", none, none⟩, ⟨"b", "B", none, none⟩] (by decide)).2.1⟩

/-! ### Capture plan properties -/

/-- Claim C8 (amended: the screenshot is of the fixed viewport, not
full-page — `captureSpec` passes no `fullPage` option): every capture opens its page at viewport
1200×630 with device scale factor 2, navigates to the target's template route
with exactly one query parameter per non-empty display field (empty or absent
fields omitted, never set to the empty string; the identifier is never a
parameter), waits for the load event, and writes a PNG screenshot to
`<outputDir>/<identifier>.png`. -/
theorem captureSpecPlan_correct (baseUrl : String) (s : TemplateFields) :
    (captureSpecPlan baseUrl s).viewportWidth = 1200 ∧
    (captureSpecPlan baseUrl s).viewportHeight = 630 ∧
    (captureSpecPlan baseUrl s).deviceScaleFactor = 2 ∧
    (captureSpecPlan baseUrl s).waitUntil = "load" ∧
    (captureSpecPlan baseUrl s).screenshotType = "png" ∧
    (captureSpecPlan baseUrl s).url = resolveUrl baseUrl TEMPLATE_ROUTE ∧
    (captureSpecPlan baseUrl s).outPath = OUTPUT_DIR ++ "/" ++ s.slug ++ ".png" ∧
    (∀ kv ∈ (captureSpecPlan baseUrl s).urlQuery,
      kv.2 ≠ "" ∧ kv.1 ∈ (["title", "subtitle", "background"] : List String)) ∧
    (∀ v, ("slug", v) ∉ (captureSpecPlan baseUrl s).urlQuery) ∧
    ((captureSpecPlan baseUrl s).urlQuery.map Prod.fst).Nodup ∧
    (("title", s.title) ∈ (captureSpecPlan baseUrl s).urlQuery ↔ s.title ≠ "") ∧
    (∀ v, ("subtitle", v) ∈ (captureSpecPlan baseUrl s).urlQuery ↔
      s.subtitle = some v ∧ v ≠ "") ∧
    (∀ v, ("background", v) ∈ (captureSpecPlan baseUrl s).urlQuery ↔
      s.background = some v ∧ v ≠ "") := by
  obtain ⟨slug, title, sub, bg⟩ := s
  refine ⟨rfl, rfl, rfl, rfl, rfl, rfl, rfl, ?_, ?_, ?_, ?_, ?_, ?_⟩ <;>
    rcases sub with _ | sv <;> rcases bg with _ | bv <;>
    simp only [captureSpecPlan, specQueryParams, optParam] <;>
    split_ifs <;> simp_all <;> aesop

/-- Counterexample to claim C8 as stated: the screenshot is not full-page
(the source passes only `path` and `type` to `page.screenshot`, and
Playwright's `fullPage` defaults to `false`), and in the legacy script the
device scale factor is `OG_DEVICE_SCALE` when that variable is set, not 2. -/
theorem captureSpec_not_fullPage :
    (captureSpecPlan "http://127.0.0.1:4311" homeSpec).screenshotFullPage = false ∧
    ¬ (captureSpecPlan "http://127.0.0.1:4311" homeSpec).screenshotFullPage = true ∧
    (captureSpecPlanScript (some 3) "http://127.0.0.1:4311" homeSpec).deviceScaleFactor = 3 := by
  refine ⟨rfl, ?_, rfl⟩
  simp [captureSpecPlan]

/-! ### Per-job page lifecycle -/

/-- Claim C9 (amended: the guarantee holds for the Effect module's
`captureSpec`, whose page is acquired with a scoped acquire/release; the
legacy script's `captureSpec` closes the page only when navigation and
screenshot both succeed): in the Effect
capture, whenever a page is opened for a job it is closed on every exit path
of that job, including navigation and screenshot failures. -/
theorem captureSpec_page_closed (e : JobEnv) (slug : String) :
    (captureSpecRun e slug).2.count (.pageClose slug) =
      (captureSpecRun e slug).2.count (.pageOpen slug) ∧
    (captureSpecRun e slug).2.count (.pageOpen slug) =
      (if e.newPageOk then 1 else 0) ∧
    (captureSpecRunScript e slug).2.count (.pageOpen slug) =
      (if e.newPageOk then 1 else 0) ∧
    (captureSpecRunScript e slug).2.count (.pageClose slug) =
      (if (captureSpecRunScript e slug).1 then 1 else 0) := by
  obtain ⟨a, b, c⟩ := e
  cases a <;> cases b <;> cases c <;>
    simp [captureSpecRun, captureSpecRunScript, List.count_cons, List.count_nil]

/-- Counterexample to claim C9 as stated: in the legacy script, a job whose
navigation fails opens a page and never closes it. -/
theorem captureSpecScript_leaks_page :
    captureSpecRunScript ⟨true, false, true⟩ "home" = (false, [.pageOpen "home"]) ∧
    Ev.pageClose "home" ∉ (captureSpecRunScript ⟨true, false, true⟩ "home").2 := by
  exact ⟨rfl, by decide⟩

/-! ### Readiness wait -/

/-- Claim C3 (amended: the timeout error names the probed URL but not the
elapsed time): readiness is polled on a
fixed 500ms interval with a 45-second budget; when no poll ever observes a
successful status, the wait terminates after exhausting the bounded poll
budget (45s / 500ms polls) and fails with the timeout error naming the
probed URL. -/
theorem waitForServer_timeout (ready : Nat → Bool) (url : String)
    (h : ∀ i < pollLimit, ready i = false) :
    POLL_INTERVAL_MS = 500 ∧
    WAIT_TIMEOUT_MS = 45000 ∧
    pollLimit = WAIT_TIMEOUT_MS / POLL_INTERVAL_MS ∧
    waitForServer ready url = .error (waitTimeoutMsg url) ∧
    pollsDone ready = pollLimit ∧
    waitTimeoutMsg url = "Timed out waiting for Next.js dev server at " ++ url := by
  have hnone : firstReady ready = none := by
    rw [firstReady, List.find?_eq_none]
    intro i hi
    simp [h i (List.mem_range.mp hi)]
  exact ⟨rfl, rfl, rfl, by rw [waitForServer, hnone], by rw [pollsDone, hnone], rfl⟩

/-- Concrete instance of `waitForServer_timeout`: a target that never answers
successfully makes the wait fail with the timeout error after the full poll
budget. -/
theorem waitForServer_timeout_witness :
    (∀ i < pollLimit, (fun _ : Nat => false) i = false) ∧
    (POLL_INTERVAL_MS = 500 ∧
     WAIT_TIMEOUT_MS = 45000 ∧
     pollLimit = WAIT_TIMEOUT_MS / POLL_INTERVAL_MS ∧
     waitForServer (fun _ => false) ephemeralTemplateUrl =
       .error (waitTimeoutMsg ephemeralTemplateUrl) ∧
     pollsDone (fun _ => false) = pollLimit ∧
     waitTimeoutMsg ephemeralTemplateUrl =
       "Timed out waiting for Next.js dev server at " ++ ephemeralTemplateUrl) :=
  ⟨fun _ _ => rfl,
   waitForServer_timeout (fun _ => false) ephemeralTemplateUrl (fun _ _ => rfl)⟩

/-- Counterexample to claim C3 as stated: the timeout error names the probed
URL but no elapsed time — for the probed URL `"u"` the message is exactly the
fixed sentence, which contains no digit (hence no rendering of the 45-second
elapsed time). -/
theorem waitForServer_msg_no_elapsed :
    waitForServer (fun _ => false) "u" =
      .error "Timed out waiting for Next.js dev server at u" ∧
    (waitTimeoutMsg "u").toList.all (fun c => !c.isDigit) = true := by
  constructor
  · have hnone : firstReady (fun _ : Nat => false) = none := by
      rw [firstReady, List.find?_eq_none]
      intro i _
      simp
    rw [waitForServer, hnone]
    rfl
  · decide

/-! ### Explicit base URL bypass -/

/-- Claim C5: whenever an explicit base URL is configured (`OG_BASE_URL`
JS-truthy after trimming and stripping a trailing slash, yielding `s`), both
locators return it as an unowned handle with an empty event trace: no
readiness poll, no discovery probe, no spawned process. -/
theorem explicit_url_bypass (env : LocEnv) (s : String)
    (h : getBaseUrlTruthy env.ogBaseUrl = some s) :
    acquireServer env = (.ok ⟨s, false⟩, []) ∧
    ensureTemplateServerScript env = (.ok ⟨s, false⟩, []) := by
  constructor
  · rw [acquireServer, h]
  · rw [ensureTemplateServerScript, h]

/-- Concrete instance of `explicit_url_bypass`: with
`OG_BASE_URL = "http://staging:8080/ "`, both locators return the normalized
URL unowned and perform no probe, poll, or spawn. -/
theorem explicit_url_bypass_witness :
    getBaseUrlTruthy (some "http://staging:8080/ ") = some "http://staging:8080" ∧
    (acquireServer ⟨some "http://staging:8080/ ", none, fun _ => .connErr,
        fun _ => false, none⟩ =
      (.ok ⟨"http://staging:8080", false⟩, []) ∧
     ensureTemplateServerScript ⟨some "http://staging:8080/ ", none,
        fun _ => .connErr, fun _ => false, none⟩ =
      (.ok ⟨"http://staging:8080", false⟩, [])) :=
  ⟨by decide,
   explicit_url_bypass
     ⟨some "http://staging:8080/ ", none, fun _ => .connErr, fun _ => false, none⟩
     "http://staging:8080" (by decide)⟩

/-! ### Discovery scan lemmas -/

lemma scanCandidates_first (probe : String → ProbeOutcome) (pre : List String)
    (c : String) (post : List String)
    (hpre : ∀ c' ∈ pre, probe (resolveUrl c' TEMPLATE_ROUTE) = .notOk ∨
      probe (resolveUrl c' TEMPLATE_ROUTE) = .connErr)
    (hc : probe (resolveUrl c TEMPLATE_ROUTE) = .ok) :
    scanCandidates probe (pre ++ c :: post) =
      (.ok (some (stripTrail c)),
       (pre ++ [c]).map (fun u => Ev.discoveryProbe (resolveUrl u TEMPLATE_ROUTE))) := by
  induction pre with
  | nil => simp [scanCandidates, hc]
  | cons a t ih =>
    have ha := hpre a (List.mem_cons_self _ _)
    have ht : ∀ c' ∈ t, probe (resolveUrl c' TEMPLATE_ROUTE) = .notOk ∨
        probe (resolveUrl c' TEMPLATE_ROUTE) = .connErr :=
      fun c' hc' => hpre c' (List.mem_cons_of_mem _ hc')
    rcases ha with ha | ha <;>
      simp [scanCandidates, ha, ih ht]

lemma scanCandidates_none (probe : String → ProbeOutcome) (cs : List String)
    (h : ∀ c ∈ cs, probe (resolveUrl c TEMPLATE_ROUTE) = .notOk ∨
      probe (resolveUrl c TEMPLATE_ROUTE) = .connErr) :
    scanCandidates probe cs =
      (.ok none, cs.map (fun u => Ev.discoveryProbe (resolveUrl u TEMPLATE_ROUTE))) := by
  induction cs with
  | nil => simp [scanCandidates]
  | cons a t ih =>
    have ha := h a (List.mem_cons_self _ _)
    have ht := fun c' hc' => h c' (List.mem_cons_of_mem _ hc')
    rcases ha with ha | ha <;>
      simp [scanCandidates, ha, ih ht]

/-- Claim C4 (amended: a reachable candidate — first in preference order,
scanned sequentially — is adopted unowned with no process spawned, and when
every candidate is unreachable *within its 1-second probe budget* the locator
proceeds to the ephemeral launch; but a candidate probe that *exceeds* the
budget fails acquisition with a `TimeoutException` instead of falling
through). -/
theorem discovery_precedence (env : LocEnv)
    (hx : getBaseUrlTruthy env.ogBaseUrl = none) :
    (∀ pre c post, candidates env = pre ++ c :: post →
      (∀ c' ∈ pre, env.probe (resolveUrl c' TEMPLATE_ROUTE) = .notOk ∨
        env.probe (resolveUrl c' TEMPLATE_ROUTE) = .connErr) →
      env.probe (resolveUrl c TEMPLATE_ROUTE) = .ok →
      acquireServer env =
        (.ok ⟨stripTrail c, false⟩,
         (pre ++ [c]).map (fun u => Ev.discoveryProbe (resolveUrl u TEMPLATE_ROUTE)))) ∧
    ((∀ c ∈ candidates env, env.probe (resolveUrl c TEMPLATE_ROUTE) = .notOk ∨
        env.probe (resolveUrl c TEMPLATE_ROUTE) = .connErr) →
      (acquireServer env).1 = (startDevServer env).1 ∧
      (acquireServer env).2.count .serverSpawn = 1) := by
  constructor
  · intro pre c post hcand hpre hc
    rw [acquireServer, hx, hcand, scanCandidates_first env.probe pre c post hpre hc]
  · intro hall
    rw [acquireServer, hx, scanCandidates_none env.probe _ hall]
    constructor
    · rfl
    · simp only [List.count_append]
      have h1 : ((candidates env).map
          (fun u => Ev.discoveryProbe (resolveUrl u TEMPLATE_ROUTE))).count Ev.serverSpawn = 0 := by
        rw [List.count_eq_zero]
        intro hmem
        rcases List.mem_map.mp hmem with ⟨u, _, hu⟩
        exact absurd hu (by simp)
      have h2 : (startDevServer env).2.count Ev.serverSpawn = 1 := by
        rw [startDevServer]
        have : (waitTrace env.ready ephemeralTemplateUrl).count Ev.serverSpawn = 0 := by
          rw [List.count_eq_zero, waitTrace]
          intro hmem
          have := List.eq_of_mem_replicate hmem
          exact absurd this (by simp)
        split <;> simp [List.count_cons, this]
      omega

/-- Concrete instance of `discovery_precedence`: with no explicit URL, a
reachable first candidate is adopted unowned with no spawn, and all-unreachable
candidates lead to the ephemeral launch. -/
theorem discovery_precedence_witness :
    getBaseUrlTruthy (none : Option String) = none ∧
    ((∀ c ∈ candidates ⟨none, none, fun _ => .connErr, fun _ => false, none⟩,
        (fun _ : String => ProbeOutcome.connErr) (resolveUrl c TEMPLATE_ROUTE) = .notOk ∨
        (fun _ : String => ProbeOutcome.connErr) (resolveUrl c TEMPLATE_ROUTE) = .connErr) →
      (acquireServer ⟨none, none, fun _ => .connErr, fun _ => false, none⟩).1 =
        (startDevServer ⟨none, none, fun _ => .connErr, fun _ => false, none⟩).1 ∧
      (acquireServer ⟨none, none, fun _ => .connErr, fun _ => false, none⟩).2.count
        .serverSpawn = 1) :=
  ⟨rfl,
   (discovery_precedence ⟨none, none, fun _ => .connErr, fun _ => false, none⟩ rfl).2⟩

/-- Counterexample to claim C4 as stated: with no explicit URL and the first
scanned candidate's probe exceeding its 1-second budget, the Effect locator
fails acquisition with a `TimeoutException` (and spawns nothing) instead of
proceeding to the ephemeral launch. -/
theorem discovery_timeout_fails :
    acquireServer ⟨none, none, fun _ => .timeout, fun _ => false, none⟩ =
      (.error timeoutExceptionMsg,
       [.discoveryProbe "http://127.0.0.1:3000/og/template"]) ∧
    Ev.serverSpawn ∉
      (acquireServer ⟨none, none, fun _ => .timeout, fun _ => false, none⟩).2 := by
  exact ⟨rfl, by decide⟩

/-! ### Trace classification lemmas -/

lemma locatorEv_of_acq {e : Ev} (h : acqEv e = true) : locatorEv e = true := by
  simp [locatorEv, h]

lemma not_mem_of_all {p : Ev → Bool} {l : List Ev} (hall : ∀ e ∈ l, p e = true)
    {x : Ev} (hx : p x = false) : x ∉ l := by
  intro hm
  rw [hall x hm] at hx
  exact Bool.true_eq_false.mp hx

lemma count_zero_of_all {p : Ev → Bool} {l : List Ev} (hall : ∀ e ∈ l, p e = true)
    {x : Ev} (hx : p x = false) : l.count x = 0 :=
  List.count_eq_zero.mpr (not_mem_of_all hall hx)

lemma scanCandidates_events (probe : String → ProbeOutcome) (cs : List String) :
    ∀ e ∈ (scanCandidates probe cs).2, ∃ u, e = Ev.discoveryProbe u := by
  induction cs with
  | nil => simp [scanCandidates]
  | cons a t ih =>
    intro e he
    cases hp : probe (resolveUrl a TEMPLATE_ROUTE) with
    | ok =>
      simp only [scanCandidates, hp, List.mem_singleton] at he
      exact ⟨_, he⟩
    | timeout =>
      simp only [scanCandidates, hp, List.mem_singleton] at he
      exact ⟨_, he⟩
    | notOk =>
      simp only [scanCandidates, hp, List.mem_cons] at he
      rcases he with rfl | he'
      · exact ⟨_, rfl⟩
      · exact ih e he'
    | connErr =>
      simp only [scanCandidates, hp, List.mem_cons] at he
      rcases he with rfl | he'
      · exact ⟨_, rfl⟩
      · exact ih e he'

lemma scanCandidatesScript_events (probe : String → ProbeOutcome) (cs : List String) :
    ∀ e ∈ (scanCandidatesScript probe cs).2, ∃ u, e = Ev.discoveryProbe u := by
  induction cs with
  | nil => simp [scanCandidatesScript]
  | cons a t ih =>
    intro e he
    cases hp : probe (resolveUrl a TEMPLATE_ROUTE) with
    | ok =>
      simp only [scanCandidatesScript, hp, List.mem_singleton] at he
      exact ⟨_, he⟩
    | timeout =>
      simp only [scanCandidatesScript, hp, List.mem_cons] at he
      rcases he with rfl | he'
      · exact ⟨_, rfl⟩
      · exact ih e he'
    | notOk =>
      simp only [scanCandidatesScript, hp, List.mem_cons] at he
      rcases he with rfl | he'
      · exact ⟨_, rfl⟩
      · exact ih e he'
    | connErr =>
      simp only [scanCandidatesScript, hp, List.mem_cons] at he
      rcases he with rfl | he'
      · exact ⟨_, rfl⟩
      · exact ih e he'

lemma startDevServer_trace (env : LocEnv) :
    (startDevServer env).2 = .serverSpawn :: waitTrace env.ready ephemeralTemplateUrl := by
  simp only [startDevServer]
  split <;> rfl

lemma mem_spawn_replicate {e : Ev} {n : Nat} {u : String}
    (he : e ∈ Ev.serverSpawn :: List.replicate n (Ev.readinessPoll u)) :
    e = .serverSpawn ∨ e = .readinessPoll u := by
  rcases List.mem_cons.mp he with rfl | h'
  · exact Or.inl rfl
  · exact Or.inr (List.eq_of_mem_replicate h')

lemma startDevServerScript_events (env : LocEnv) :
    ∀ e ∈ (startDevServerScript env).2,
      e = .serverSpawn ∨ e = .readinessPoll ephemeralTemplateUrl := by
  intro e he
  simp only [startDevServerScript, waitTrace] at he
  split at he
  · split at he <;> exact mem_spawn_replicate he
  · split at he
    · split at he <;> exact mem_spawn_replicate he
    · split at he <;> exact mem_spawn_replicate he

lemma replicate_poll_count_spawn (n : Nat) (u : String) :
    (List.replicate n (Ev.readinessPoll u)).count Ev.serverSpawn = 0 := by
  rw [List.count_eq_zero]
  intro hm
  exact absurd (List.eq_of_mem_replicate hm) (by simp)

lemma startDevServerScript_spawn_count (env : LocEnv) :
    (startDevServerScript env).2.count .serverSpawn = 1 := by
  simp only [startDevServerScript, waitTrace]
  split
  · split <;> simp [List.count_cons, replicate_poll_count_spawn]
  · split
    · split <;> simp [List.count_cons, replicate_poll_count_spawn]
    · split <;> simp [List.count_cons, replicate_poll_count_spawn]

lemma acquireServer_events (env : LocEnv) :
    ∀ e ∈ (acquireServer env).2, acqEv e = true := by
  intro e he
  simp only [acquireServer] at he
  cases hx : getBaseUrlTruthy env.ogBaseUrl with
  | some u => rw [hx] at he; simp at he
  | none =>
    rw [hx] at he
    rcases hscan : scanCandidates env.probe (candidates env) with ⟨res, tr⟩
    have htr : ∀ e ∈ tr, ∃ u, e = Ev.discoveryProbe u := by
      have h0 := scanCandidates_events env.probe (candidates env)
      rw [hscan] at h0
      exact h0
    rw [hscan] at he
    cases res with
    | error err =>
      simp only at he
      obtain ⟨u, rfl⟩ := htr e he
      rfl
    | ok o =>
      cases o with
      | some b =>
        simp only at he
        obtain ⟨u, rfl⟩ := htr e he
        rfl
      | none =>
        simp only [List.mem_append] at he
        rcases he with he | he
        · obtain ⟨u, rfl⟩ := htr e he
          rfl
        · rw [startDevServer_trace] at he
          rcases List.mem_cons.mp he with rfl | he'
          · rfl
          · rw [List.eq_of_mem_replicate he']
            rfl

lemma serverLayerBuild_events (env : LocEnv) :
    ∀ e ∈ (serverLayerBuild env).2, locatorEv e = true := by
  intro e he
  simp only [serverLayerBuild] at he
  rcases hacq : (acquireServer env).1 with err | h
  · rw [hacq] at he
    simp only [List.mem_append] at he
    rcases he with he | he
    · exact locatorEv_of_acq (acquireServer_events env e he)
    · split at he
      · rw [List.mem_singleton.mp he]
        rfl
      · simp at he
  · rw [hacq] at he
    exact locatorEv_of_acq (acquireServer_events env e he)

lemma ensureTemplateServerScript_events (env : LocEnv) :
    ∀ e ∈ (ensureTemplateServerScript env).2, acqEv e = true := by
  intro e he
  simp only [ensureTemplateServerScript] at he
  cases hx : getBaseUrlTruthy env.ogBaseUrl with
  | some u => rw [hx] at he; simp at he
  | none =>
    rw [hx] at he
    rcases hscan : scanCandidatesScript env.probe (candidates env) with ⟨res, tr⟩
    have htr : ∀ e ∈ tr, ∃ u, e = Ev.discoveryProbe u := by
      have h0 := scanCandidatesScript_events env.probe (candidates env)
      rw [hscan] at h0
      exact h0
    rw [hscan] at he
    cases res with
    | some b =>
      simp only at he
      obtain ⟨u, rfl⟩ := htr e he
      rfl
    | none =>
      simp only [List.mem_append] at he
      rcases he with he | he
      · obtain ⟨u, rfl⟩ := htr e he
        rfl
      · rcases startDevServerScript_events env e he with rfl | rfl <;> rfl

lemma captureSpecRun_trace_sub (j : JobEnv) (slug : String) :
    (captureSpecRun j slug).2 ⊆
      [Ev.pageOpen slug, Ev.fileWrite (OUTPUT_DIR ++ "/" ++ slug ++ ".png"),
       Ev.pageClose slug] := by
  obtain ⟨a, b, c⟩ := j
  cases a <;> cases b <;> cases c <;> simp [captureSpecRun]

lemma captureSpecRun_events (j : JobEnv) (slug : String) :
    ∀ e ∈ (captureSpecRun j slug).2, jobEv e = true := by
  intro e he
  have hm := captureSpecRun_trace_sub j slug he
  simp only [List.mem_cons, List.not_mem_nil, or_false] at hm
  rcases hm with rfl | rfl | rfl <;> rfl

lemma runCaptures_events (job : String → JobEnv) (l : List TemplateFields) :
    ∀ e ∈ (runCaptures job l).2, jobEv e = true := by
  induction l with
  | nil => simp [runCaptures]
  | cons s rest ih =>
    intro e he
    simp only [runCaptures] at he
    split at he
    · simp only [List.mem_append] at he
      rcases he with he | he
      · exact captureSpecRun_events _ _ e he
      · exact ih e he
    · exact captureSpecRun_events _ _ e he

/-! ### Acquire/release accounting -/

lemma waitTrace_count_spawn (ready : Nat → Bool) (url : String) :
    (waitTrace ready url).count Ev.serverSpawn = 0 := by
  rw [List.count_eq_zero, waitTrace]
  intro hm
  exact absurd (List.eq_of_mem_replicate hm) (by simp)

lemma scan_count_spawn (probe : String → ProbeOutcome) (cs : List String) :
    (scanCandidates probe cs).2.count Ev.serverSpawn = 0 := by
  rw [List.count_eq_zero]
  intro hm
  obtain ⟨u, hu⟩ := scanCandidates_events probe cs _ hm
  exact absurd hu (by simp)

lemma startDevServer_spawn_count (env : LocEnv) :
    (startDevServer env).2.count Ev.serverSpawn = 1 := by
  rw [startDevServer_trace, List.count_cons, waitTrace_count_spawn]
  rfl

lemma startDevServer_owned (env : LocEnv) (h : ServerHandle)
    (hok : (startDevServer env).1 = .ok h) : h = ⟨ephemeralBaseUrl, true⟩ := by
  simp only [startDevServer] at hok
  split at hok <;> simp_all

/-- At most one spawn happens during acquisition. -/
lemma acquireServer_spawn_le (env : LocEnv) :
    (acquireServer env).2.count .serverSpawn ≤ 1 := by
  simp only [acquireServer]
  cases hx : getBaseUrlTruthy env.ogBaseUrl with
  | some u => simp
  | none =>
    rcases hscan : scanCandidates env.probe (candidates env) with ⟨res, tr⟩
    have htr : tr.count Ev.serverSpawn = 0 := by
      have h0 := scan_count_spawn env.probe (candidates env)
      rw [hscan] at h0
      exact h0
    cases res with
    | error err => simp [htr]
    | ok o =>
      cases o with
      | some b => simp [htr]
      | none => simp [List.count_append, htr, startDevServer_spawn_count]

/-- A successful handle is owned exactly when a spawn happened during its
acquisition. -/
lemma acquireServer_owned (env : LocEnv) (h : ServerHandle)
    (hok : (acquireServer env).1 = .ok h) :
    (acquireServer env).2.count .serverSpawn = (if h.owned then 1 else 0) := by
  revert hok
  simp only [acquireServer]
  cases hx : getBaseUrlTruthy env.ogBaseUrl with
  | some u =>
    intro hok
    injection hok with h1
    subst h1
    simp
  | none =>
    rcases hscan : scanCandidates env.probe (candidates env) with ⟨res, tr⟩
    have htr : tr.count Ev.serverSpawn = 0 := by
      have h0 := scan_count_spawn env.probe (candidates env)
      rw [hscan] at h0
      exact h0
    cases res with
    | error err =>
      intro hok
      simp at hok
    | ok o =>
      cases o with
      | some b =>
        intro hok
        injection hok with h1
        subst h1
        simp [htr]
      | none =>
        intro hok
        have hh := startDevServer_owned env h hok
        subst hh
        simp [List.count_append, htr, startDevServer_spawn_count]

lemma serverLayerBuild_ok (env : LocEnv) (h : ServerHandle)
    (hok : (serverLayerBuild env).1 = .ok h) :
    (serverLayerBuild env).2 = (acquireServer env).2 ∧
    (acquireServer env).1 = .ok h := by
  revert hok
  simp only [serverLayerBuild]
  rcases hacq : (acquireServer env).1 with e | h'
  · intro hok
    simp at hok
  · intro hok
    simp only [Except.ok.injEq] at hok
    subst hok
    exact ⟨rfl, rfl⟩

lemma serverLayerBuild_err (env : LocEnv) (e : String)
    (herr : (serverLayerBuild env).1 = .error e) :
    (serverLayerBuild env).2.count .serverKill =
      (serverLayerBuild env).2.count .serverSpawn ∧
    (serverLayerBuild env).2.count .serverSpawn ≤ 1 := by
  have hkill : (acquireServer env).2.count Ev.serverKill = 0 :=
    count_zero_of_all (acquireServer_events env) (by rfl)
  have hle := acquireServer_spawn_le env
  revert herr
  simp only [serverLayerBuild]
  rcases hacq : (acquireServer env).1 with e' | h'
  · intro _
    by_cases hsp : (acquireServer env).2.count Ev.serverSpawn = 1
    · simp [hsp, List.count_append, hkill, List.count_cons]
    · have h0 : (acquireServer env).2.count Ev.serverSpawn = 0 := by omega
      simp [hsp, List.count_append, hkill, h0]
  · intro herr
    simp at herr

lemma serverLayerBuild_ok_counts (env : LocEnv) (h : ServerHandle)
    (hok : (serverLayerBuild env).1 = .ok h) :
    (serverLayerBuild env).2.count Ev.serverSpawn = (if h.owned then 1 else 0) ∧
    (serverLayerBuild env).2.count Ev.serverKill = 0 := by
  obtain ⟨htr, hacq⟩ := serverLayerBuild_ok env h hok
  rw [htr]
  exact ⟨acquireServer_owned env h hacq,
    count_zero_of_all (acquireServer_events env) (by rfl)⟩

lemma serverRelease_counts (h : ServerHandle) :
    (serverRelease h).count Ev.serverKill = (if h.owned then 1 else 0) ∧
    (serverRelease h).count Ev.serverSpawn = 0 ∧
    (serverRelease h).count Ev.browserLaunch = 0 ∧
    (serverRelease h).count Ev.browserClose = 0 := by
  cases hh : h.owned <;> simp [serverRelease, hh]

/-- Claim C1: on every exit path of the Effect pipeline (success, capture
failure, locator failure, browser-launch failure), the browser close runs
exactly once per successful launch (and cannot run when the launch failed,
there being no browser process), the owned server's kill runs exactly once
per spawn, at most one server is ever spawned, and no kill is ever issued
for an unowned (explicit or discovered) target — the kill count equals the
spawn count, which is zero whenever no server was spawned. -/
theorem resources_released (env : RunEnv) (docs : List Doc) :
    (runPipeline env docs).2.count .serverSpawn ≤ 1 ∧
    (runPipeline env docs).2.count .serverKill =
      (runPipeline env docs).2.count .serverSpawn ∧
    (runPipeline env docs).2.count .browserLaunch =
      (if env.browserLaunchOk then 1 else 0) ∧
    (runPipeline env docs).2.count .browserClose =
      (runPipeline env docs).2.count .browserLaunch := by
  have hb1 : (serverLayerBuild env.loc).2.count Ev.browserLaunch = 0 :=
    count_zero_of_all (serverLayerBuild_events env.loc) (by rfl)
  have hb2 : (serverLayerBuild env.loc).2.count Ev.browserClose = 0 :=
    count_zero_of_all (serverLayerBuild_events env.loc) (by rfl)
  have hcsp : ∀ l, (runCaptures env.job l).2.count Ev.serverSpawn = 0 :=
    fun l => count_zero_of_all (runCaptures_events env.job l) (by rfl)
  have hck : ∀ l, (runCaptures env.job l).2.count Ev.serverKill = 0 :=
    fun l => count_zero_of_all (runCaptures_events env.job l) (by rfl)
  have hcb1 : ∀ l, (runCaptures env.job l).2.count Ev.browserLaunch = 0 :=
    fun l => count_zero_of_all (runCaptures_events env.job l) (by rfl)
  have hcb2 : ∀ l, (runCaptures env.job l).2.count Ev.browserClose = 0 :=
    fun l => count_zero_of_all (runCaptures_events env.job l) (by rfl)
  cases hbl : env.browserLaunchOk with
  | false =>
    rcases hs : (serverLayerBuild env.loc).1 with e | h
    · obtain ⟨hk, hle⟩ := serverLayerBuild_err env.loc e hs
      simp [runPipeline, browserLayerBuild, hbl, hs, List.count_append,
        hk, hle, hb1, hb2]
    · obtain ⟨hsp, hk0⟩ := serverLayerBuild_ok_counts env.loc h hs
      obtain ⟨hr1, hr2, hr3, hr4⟩ := serverRelease_counts h
      cases hw : h.owned <;>
        simp_all [runPipeline, browserLayerBuild, List.count_append]
  | true =>
    rcases hs : (serverLayerBuild env.loc).1 with e | h
    · obtain ⟨hk, hle⟩ := serverLayerBuild_err env.loc e hs
      simp [runPipeline, browserLayerBuild, hbl, hs, List.count_append,
        List.count_cons, hk, hle, hb1, hb2]
    · obtain ⟨hsp, hk0⟩ := serverLayerBuild_ok_counts env.loc h hs
      obtain ⟨hr1, hr2, hr3, hr4⟩ := serverRelease_counts h
      cases hse : (pickSpecs env.ogOnly docs).1.isEmpty <;>
        cases hw : h.owned <;>
        simp_all [runPipeline, browserLayerBuild, List.count_append,
          List.count_cons]

/-! ### Early-exit behaviour of the ephemeral launch -/

lemma firstReady_none (ready : Nat → Bool) (hr : ∀ i < pollLimit, ready i = false) :
    firstReady ready = none := by
  rw [firstReady, List.find?_eq_none]
  intro i hi
  simp [hr i (List.mem_range.mp hi)]

lemma scanCandidatesScript_none (probe : String → ProbeOutcome) (cs : List String)
    (h : ∀ c ∈ cs, probe (resolveUrl c TEMPLATE_ROUTE) ≠ .ok) :
    (scanCandidatesScript probe cs).1 = none := by
  induction cs with
  | nil => rfl
  | cons a t ih =>
    have ha := h a (List.mem_cons_self _ _)
    have ht := fun c hc => h c (List.mem_cons_of_mem _ hc)
    cases hp : probe (resolveUrl a TEMPLATE_ROUTE) <;>
      simp_all [scanCandidatesScript]

lemma startDevServer_timeout (env : LocEnv)
    (hr : ∀ i < pollLimit, env.ready i = false) :
    (startDevServer env).1 = .error (waitTimeoutMsg ephemeralTemplateUrl) := by
  simp [startDevServer, waitForServer, firstReady_none env.ready hr]

lemma runPipelineScript_no_write_of_err (env : RunEnv) (docs : List Doc) (e : String)
    (herr : (ensureTemplateServerScript env.loc).1 = .error e) :
    ∀ p, Ev.fileWrite p ∉ (runPipelineScript env docs).2 := by
  intro p
  simp only [runPipelineScript]
  split
  · simp
  · rw [herr]
    exact not_mem_of_all (ensureTemplateServerScript_events env.loc) rfl

lemma runPipeline_no_write_of_err (env : RunEnv) (docs : List Doc) (e : String)
    (herr : (serverLayerBuild env.loc).1 = .error e) :
    ∀ p, Ev.fileWrite p ∉ (runPipeline env docs).2 := by
  intro p
  have hnw : Ev.fileWrite p ∉ (serverLayerBuild env.loc).2 :=
    not_mem_of_all (serverLayerBuild_events env.loc) rfl
  cases hbl : env.browserLaunchOk <;>
    simp_all [runPipeline, browserLayerBuild, herr]

/-- Counterexample to claim C2 as stated: the Effect-based `startDevServer`
has no listener on the spawned process's exit, so with the process exiting
immediately with code 1 before any successful probe, acquisition does not
fail with a start-failure carrying exit code 1 — it keeps polling for the
whole 45-second window and then fails with the readiness-timeout error. -/
theorem startDevServer_ignores_exit :
    (startDevServer ⟨none, none, fun _ => .connErr, fun _ => false, some (0, some 1)⟩).1 =
      .error (waitTimeoutMsg ephemeralTemplateUrl) ∧
    (startDevServer ⟨none, none, fun _ => .connErr, fun _ => false, some (0, some 1)⟩).2.count
      (.readinessPoll ephemeralTemplateUrl) = pollLimit ∧
    waitTimeoutMsg ephemeralTemplateUrl ≠ exitEarlyMsg (some 1) := by
  have hfr : firstReady (fun _ : Nat => false) = none :=
    firstReady_none _ (fun _ _ => rfl)
  refine ⟨?_, ?_, by decide⟩
  · simp [startDevServer, waitForServer, hfr]
  · simp [startDevServer_trace, waitTrace, pollsDone, hfr, List.count_cons,
      List.count_replicate]

/-- Claim C2 (amended: the early-exit short-circuit exists only in the legacy
script's `ensureTemplateServer` — its `Promise.race` makes acquisition fail
immediately, with zero readiness polls, with the early-exit error carrying
exit code 1, distinct from the timeout error; the Effect-based locator has no
exit watcher and instead fails with the readiness-timeout error after the
full window.  In both pipelines no image
file is written). -/
theorem early_exit_behavior (env : RunEnv) (docs : List Doc)
    (hx : getBaseUrlTruthy env.loc.ogBaseUrl = none)
    (hp : ∀ u, env.loc.probe u = .connErr)
    (hr : ∀ i, env.loc.ready i = false)
    (he : env.loc.procExit = some (0, some 1)) :
    (ensureTemplateServerScript env.loc).1 = .error (exitEarlyMsg (some 1)) ∧
    (startDevServerScript env.loc).2.count (.readinessPoll ephemeralTemplateUrl) = 0 ∧
    exitEarlyMsg (some 1) = "Next dev server exited early (code 1)" ∧
    exitEarlyMsg (some 1) ≠ waitTimeoutMsg ephemeralTemplateUrl ∧
    (∀ p, Ev.fileWrite p ∉ (runPipelineScript env docs).2) ∧
    (acquireServer env.loc).1 = .error (waitTimeoutMsg ephemeralTemplateUrl) ∧
    (∀ p, Ev.fileWrite p ∉ (runPipeline env docs).2) := by
  have hfr : firstReady env.loc.ready = none :=
    firstReady_none env.loc.ready (fun i _ => hr i)
  have hstart1 : (startDevServerScript env.loc).1 = .error (exitEarlyMsg (some 1)) := by
    simp [startDevServerScript, he, hfr, pollLimit, WAIT_TIMEOUT_MS, POLL_INTERVAL_MS]
  have hstart2 : (startDevServerScript env.loc).2.count
      (.readinessPoll ephemeralTemplateUrl) = 0 := by
    simp [startDevServerScript, he, hfr, List.count_cons]
  have hens : (ensureTemplateServerScript env.loc).1 = .error (exitEarlyMsg (some 1)) := by
    have hscn : (scanCandidatesScript env.loc.probe (candidates env.loc)).1 = none :=
      scanCandidatesScript_none _ _ (fun c _ => by simp [hp])
    rcases hsc : scanCandidatesScript env.loc.probe (candidates env.loc) with ⟨res, tr⟩
    rw [hsc] at hscn
    simp only at hscn
    subst hscn
    simp [ensureTemplateServerScript, hx, hsc, hstart1]
  have hall : ∀ c ∈ candidates env.loc,
      env.loc.probe (resolveUrl c TEMPLATE_ROUTE) = .notOk ∨
      env.loc.probe (resolveUrl c TEMPLATE_ROUTE) = .connErr :=
    fun c _ => Or.inr (hp _)
  have hacq : (acquireServer env.loc).1 = .error (waitTimeoutMsg ephemeralTemplateUrl) := by
    simp [acquireServer, hx, scanCandidates_none env.loc.probe _ hall,
      startDevServer_timeout env.loc (fun i _ => hr i)]
  have hbuild : (serverLayerBuild env.loc).1 = .error (waitTimeoutMsg ephemeralTemplateUrl) := by
    simp [serverLayerBuild, hacq]
  refine ⟨hens, hstart2, rfl, by decide, ?_, hacq, ?_⟩
  · exact runPipelineScript_no_write_of_err env docs _ hens
  · exact runPipeline_no_write_of_err env docs _ hbuild

/-- Concrete instance of `early_exit_behavior`: process exits immediately
with code 1, no probe ever succeeds, no explicit URL, no reachable
candidate. -/
theorem early_exit_behavior_witness :
    (ensureTemplateServerScript ⟨none, none, fun _ => .connErr, fun _ => false,
        some (0, some 1)⟩).1 = .error (exitEarlyMsg (some 1)) ∧
    (startDevServerScript ⟨none, none, fun _ => .connErr, fun _ => false,
        some (0, some 1)⟩).2.count (.readinessPoll ephemeralTemplateUrl) = 0 ∧
    exitEarlyMsg (some 1) = "Next dev server exited early (code 1)" ∧
    exitEarlyMsg (some 1) ≠ waitTimeoutMsg ephemeralTemplateUrl ∧
    (∀ p, Ev.fileWrite p ∉
      (runPipelineScript ⟨⟨none, none, fun _ => .connErr, fun _ => false,
        some (0, some 1)⟩, none, true, fun _ => ⟨true, true, true⟩⟩ []).2) ∧
    (acquireServer ⟨none, none, fun _ => .connErr, fun _ => false,
        some (0, some 1)⟩).1 = .error (waitTimeoutMsg ephemeralTemplateUrl) ∧
    (∀ p, Ev.fileWrite p ∉
      (runPipeline ⟨⟨none, none, fun _ => .connErr, fun _ => false,
        some (0, some 1)⟩, none, true, fun _ => ⟨true, true, true⟩⟩ []).2) :=
  early_exit_behavior
    ⟨⟨none, none, fun _ => .connErr, fun _ => false, some (0, some 1)⟩,
      none, true, fun _ => ⟨true, true, true⟩⟩ []
    rfl (fun _ => rfl) (fun _ => rfl) rfl

/-! ### The synthetic home job -/

lemma captureSpecRun_success_write (j : JobEnv) (slug : String)
    (h : (captureSpecRun j slug).1 = true) :
    Ev.fileWrite (OUTPUT_DIR ++ "/" ++ slug ++ ".png") ∈ (captureSpecRun j slug).2 := by
  obtain ⟨a, b, c⟩ := j
  cases a <;> cases b <;> cases c <;> simp_all [captureSpecRun]

lemma runCaptures_head_write (job : String → JobEnv) (s : TemplateFields)
    (rest : List TemplateFields)
    (hok : (runCaptures job (s :: rest)).1 = true) :
    Ev.fileWrite (OUTPUT_DIR ++ "/" ++ s.slug ++ ".png") ∈
      (runCaptures job (s :: rest)).2 := by
  revert hok
  simp only [runCaptures]
  split
  · next hhead =>
    intro _
    exact List.mem_append.mpr
      (Or.inl (captureSpecRun_success_write (job s.slug) s.slug hhead))
  · next hhead =>
    intro hc
    simp at hc

lemma dedupeSpecs_build_head (docs : List Doc) :
    dedupeSpecs (buildDocSpecs docs) =
      homeSpec :: (dedupeGo [homeSpec.slug] (docs.map docSpec)).1 := rfl

/-- Claim C10: the candidate job list always begins with the synthetic job
(identifier `home`, title `Effect Solutions`) prepended ahead of all
doc-derived jobs; any doc-derived job with slug `home` is dropped by
de-duplication (the kept record with slug `home` is always the synthetic
one); and an unfiltered successful run writes `home.png`. -/
theorem home_spec_first (env : RunEnv) (docs : List Doc)
    (hfilter : getOnlyFilter env.ogOnly = [])
    (hok : (runPipeline env docs).1 = true) :
    (buildDocSpecs docs).head? = some homeSpec ∧
    homeSpec.slug = "home" ∧
    homeSpec.title = "Effect Solutions" ∧
    (∀ s ∈ dedupeSpecs (buildDocSpecs docs), s.slug = "home" → s = homeSpec) ∧
    Ev.fileWrite (OUTPUT_DIR ++ "/home.png") ∈ (runPipeline env docs).2 := by
  refine ⟨rfl, rfl, rfl, ?_, ?_⟩
  · intro s hs hsl
    have hf := (dedupeGo_first [] (buildDocSpecs docs) s hs).2
    have hp : ((fun t : TemplateFields => t.slug == s.slug) homeSpec) = true := by
      simp [homeSpec, hsl]
    have hfh : List.find? (fun t : TemplateFields => t.slug == s.slug)
        (homeSpec :: docs.map docSpec) = some homeSpec :=
      List.find?_cons_of_pos _ hp
    rw [buildDocSpecs, hfh] at hf
    exact (Option.some_inj.mp hf).symm
  · have hpick : (pickSpecs env.ogOnly docs).1 = dedupeSpecs (buildDocSpecs docs) := by
      simp [pickSpecs, hfilter, pickSpecsWith]
    have hspecs : (pickSpecs env.ogOnly docs).1 =
        homeSpec :: (dedupeGo [homeSpec.slug] (docs.map docSpec)).1 := by
      rw [hpick, dedupeSpecs_build_head]
    cases hbl : env.browserLaunchOk with
    | false =>
      rcases hs : (serverLayerBuild env.loc).1 with e | h <;>
        simp [runPipeline, browserLayerBuild, hbl, hs] at hok
    | true =>
      rcases hs : (serverLayerBuild env.loc).1 with e | h
      · simp [runPipeline, browserLayerBuild, hbl, hs] at hok
      · have hok2 : (runCaptures env.job
            (homeSpec :: (dedupeGo [homeSpec.slug] (docs.map docSpec)).1)).1 = true := by
          simpa [runPipeline, browserLayerBuild, hbl, hs, hspecs] using hok
        have hrun : (runPipeline env docs).2 =
            (serverLayerBuild env.loc).2 ++ [Ev.browserLaunch] ++
              (runCaptures env.job
                (homeSpec :: (dedupeGo [homeSpec.slug] (docs.map docSpec)).1)).2 ++
              [Ev.browserClose] ++ serverRelease h := by
          simp [runPipeline, browserLayerBuild, hbl, hs, hspecs]
        have hw := runCaptures_head_write env.job homeSpec
          (dedupeGo [homeSpec.slug] (docs.map docSpec)).1 hok2
        have heq : Ev.fileWrite (OUTPUT_DIR ++ "/home.png") =
            Ev.fileWrite (OUTPUT_DIR ++ "/" ++ homeSpec.slug ++ ".png") := rfl
        rw [hrun, heq]
        simp only [List.mem_append]
        exact Or.inl (Or.inl (Or.inr hw))

/-- Concrete instance of `home_spec_first`: an unfiltered run against an
explicit base URL, with no docs and every job step succeeding, writes
`home.png`. -/
theorem home_spec_first_witness :
    getOnlyFilter (none : Option String) = [] ∧
    (runPipeline ⟨⟨some "http://localhost:3000", none, fun _ => .connErr,
        fun _ => false, none⟩, none, true, fun _ => ⟨true, true, true⟩⟩ []).1 = true ∧
    Ev.fileWrite (OUTPUT_DIR ++ "/home.png") ∈
      (runPipeline ⟨⟨some "http://localhost:3000", none, fun _ => .connErr,
        fun _ => false, none⟩, none, true, fun _ => ⟨true, true, true⟩⟩ []).2 :=
  ⟨rfl, rfl,
   (home_spec_first
     ⟨⟨some "http://localhost:3000", none, fun _ => .connErr, fun _ => false, none⟩,
       none, true, fun _ => ⟨true, true, true⟩⟩ [] rfl rfl).2.2.2.2⟩

end OG
